import Mathlib

/-
Formal model of the view-synchronization core in
crates/editor_extensions/src/items.rs: the snapshot/delta wire codecs, the
excerpt-update logic of update_editor_from_message, the outgoing-delta
accumulator add_event_to_update_proto, and the search match index resolver
(active_match_index, match_index_for_direction, activate_match).

Buffer-relative text anchors are opaque in items.rs; they are modelled as Nat
positions. Machine floats (scroll offsets) are only moved, never computed
with, so they are modelled as opaque Nat payloads. A none result of a
function modelling a Rust expression that can panic represents the panic.
-/

namespace Items

/-- Opaque model of an f32 payload: items.rs only copies scroll offsets,
never computes with them. -/
abbrev F32 := Nat

/-- ExcerptId: totally ordered identifier of one excerpt (a u64-backed id in
the source, modelled as Nat). -/
structure ExcerptId where
  id : Nat
deriving DecidableEq

def ExcerptId.to_proto (e : ExcerptId) : Nat := e.id

def ExcerptId.from_proto (n : Nat) : ExcerptId := ⟨n⟩

/-- A start..end range; the field stop embeds the Rust field named end. -/
structure TextRange (α : Type) where
  start : α
  stop : α
deriving DecidableEq

/-- ExcerptRange: a context range and an optional primary sub-range of
buffer-relative anchors. -/
structure ExcerptRange (α : Type) where
  context : TextRange α
  primary : Option (TextRange α)
deriving DecidableEq

/-- Excerpt owned by the composite document: id, source buffer id, range. -/
structure Excerpt where
  id : ExcerptId
  buffer_id : Nat
  range : ExcerptRange Nat
deriving DecidableEq

/-- The composite document state visible to items.rs: its excerpt sequence. -/
structure MultiBufferSnapshot where
  excerpts : List Excerpt
deriving DecidableEq

/-- Lookup of the buffer owning an excerpt, as MultiBufferSnapshot exposes it
to deserialize_anchor. -/
def MultiBufferSnapshot.buffer_id_for_excerpt (s : MultiBufferSnapshot)
    (eid : ExcerptId) : Option Nat :=
  (s.excerpts.find? (fun e => decide (e.id = eid))).map (fun e => e.buffer_id)

/-- Editor Anchor: excerpt id, buffer-relative position, optional resolved
buffer id (metadata). -/
structure Anchor where
  excerpt_id : ExcerptId
  text_anchor : Nat
  buffer_id : Option Nat
deriving DecidableEq

/-- Two editor anchors are equivalent when they agree on excerpt and position;
the resolved buffer id is metadata (spec section 4.1). -/
def anchorEquiv (a b : Anchor) : Prop :=
  a.excerpt_id = b.excerpt_id ∧ a.text_anchor = b.text_anchor

/-- Transient navigation goal of a selection. -/
inductive SelectionGoal where
  | none
  | column (c : Nat)
deriving DecidableEq

/-- A selection over positions of type α; the field stop embeds the Rust
field named end. -/
structure Selection (α : Type) where
  id : Nat
  start : α
  stop : α
  reversed : Bool
  goal : SelectionGoal
deriving DecidableEq

/-- ScrollAnchor: viewport anchor plus a sub-anchor pixel offset. -/
structure ScrollAnchor where
  anchor : Anchor
  offset : F32 × F32
deriving DecidableEq

/-- Wire form of a buffer-relative text anchor. Modelled from the spec:
language::proto serialization of text anchors lives outside this file; the
wire value either decodes back to the position it was built from or is
malformed and fails to decode. -/
inductive ProtoTextAnchor where
  | valid (offset : Nat)
  | invalid
deriving DecidableEq

/-- Modelled from the spec: language::proto::serialize_anchor for text
anchors (outside this file); emits a well-formed wire anchor. -/
def serialize_text_anchor (a : Nat) : ProtoTextAnchor := .valid a

/-- Modelled from the spec: language::proto::deserialize_anchor for text
anchors (outside this file); decoding fails, producing none, on a malformed
wire anchor. -/
def deserialize_text_anchor : ProtoTextAnchor → Option Nat
  | .valid a => some a
  | .invalid => none

/-- Wire form proto::Excerpt; the field stop_ names suffix end of the proto
fields context_end and primary_end. -/
structure ProtoExcerpt where
  id : Nat
  buffer_id : Nat
  context_start : Option ProtoTextAnchor
  context_end : Option ProtoTextAnchor
  primary_start : Option ProtoTextAnchor
  primary_end : Option ProtoTextAnchor
deriving DecidableEq

/-- Wire form proto::ExcerptInsertion. -/
structure ProtoExcerptInsertion where
  previous_excerpt_id : Option Nat
  excerpt : Option ProtoExcerpt
deriving DecidableEq

/-- Wire form proto::EditorAnchor. -/
structure ProtoEditorAnchor where
  excerpt_id : Nat
  anchor : Option ProtoTextAnchor
deriving DecidableEq

/-- Wire form proto::Selection; the field stop embeds the proto field named
end. -/
structure ProtoSelection where
  id : Nat
  start : Option ProtoEditorAnchor
  stop : Option ProtoEditorAnchor
  reversed : Bool
deriving DecidableEq

/-- Wire form proto::update_view::Editor, the accumulated ViewDelta. -/
structure ProtoEditorUpdate where
  inserted_excerpts : List ProtoExcerptInsertion
  deleted_excerpts : List Nat
  selections : List ProtoSelection
  pending_selection : Option ProtoSelection
  scroll_top_anchor : Option ProtoEditorAnchor
  scroll_x : F32
  scroll_y : F32
deriving DecidableEq

/-- The Default::default() value of proto::update_view::Editor. -/
def emptyUpdate : ProtoEditorUpdate :=
  { inserted_excerpts := [], deleted_excerpts := [], selections := [],
    pending_selection := none, scroll_top_anchor := none,
    scroll_x := 0, scroll_y := 0 }

/-- Embeds serialize_excerpt (items.rs lines 444-463). -/
def serialize_excerpt (buffer_id : Nat) (id : ExcerptId)
    (range : ExcerptRange Nat) : Option ProtoExcerpt :=
  some
    { id := id.to_proto
      buffer_id := buffer_id
      context_start := some (serialize_text_anchor range.context.start)
      context_end := some (serialize_text_anchor range.context.stop)
      primary_start := range.primary.map (fun r => serialize_text_anchor r.start)
      primary_end := range.primary.map (fun r => serialize_text_anchor r.stop) }

/-- Embeds serialize_anchor (items.rs lines 474-479). -/
def serialize_anchor (anchor : Anchor) : ProtoEditorAnchor :=
  { excerpt_id := anchor.excerpt_id.to_proto
    anchor := some (serialize_text_anchor anchor.text_anchor) }

/-- Embeds serialize_selection (items.rs lines 465-472); the usize to u64
cast of the id is a reduction mod 2 to the 64. -/
def serialize_selection (selection : Selection Anchor) : ProtoSelection :=
  { id := selection.id % 2 ^ 64
    start := some (serialize_anchor selection.start)
    stop := some (serialize_anchor selection.stop)
    reversed := selection.reversed }

/-- Embeds deserialize_excerpt_range (items.rs lines 481-496): context bounds
are required, a missing or malformed one makes the whole result none; the
primary range is decoded only when both optional bounds are present, and is
dropped when either fails to decode. -/
def deserialize_excerpt_range (excerpt : ProtoExcerpt) :
    Option (ExcerptRange Nat) := do
  let cs ← excerpt.context_start
  let cs ← deserialize_text_anchor cs
  let ce ← excerpt.context_end
  let ce ← deserialize_text_anchor ce
  let primary :=
    match excerpt.primary_start, excerpt.primary_end with
    | some ps, some pe =>
      (deserialize_text_anchor ps).bind fun ps =>
        (deserialize_text_anchor pe).map fun pe => TextRange.mk ps pe
    | _, _ => none
  pure { context := TextRange.mk cs ce, primary := primary }

/-- Embeds deserialize_anchor (items.rs lines 511-518); the resolved buffer
id is looked up in the local composite document. -/
def deserialize_anchor (buffer : MultiBufferSnapshot)
    (anchor : ProtoEditorAnchor) : Option Anchor :=
  let excerpt_id := ExcerptId.from_proto anchor.excerpt_id
  anchor.anchor.bind fun a =>
    (deserialize_text_anchor a).map fun t =>
      { excerpt_id := excerpt_id
        text_anchor := t
        buffer_id := buffer.buffer_id_for_excerpt excerpt_id }

/-- Embeds deserialize_selection (items.rs lines 498-509); the u64 to usize
cast of the id is a reduction mod 2 to the 64, and the goal is reset. -/
def deserialize_selection (buffer : MultiBufferSnapshot)
    (selection : ProtoSelection) : Option (Selection Anchor) := do
  let s ← selection.start
  let s ← deserialize_anchor buffer s
  let e ← selection.stop
  let e ← deserialize_anchor buffer e
  pure { id := selection.id % 2 ^ 64, start := s, stop := e,
         reversed := selection.reversed, goal := SelectionGoal.none }

/-- Insertion sort step for sortBy. -/
def insertSorted (cmp : α → α → Ordering) (a : α) : List α → List α
  | [] => [a]
  | b :: l =>
    match cmp a b with
    | .gt => b :: insertSorted cmp a l
    | _ => a :: b :: l

/-- Stable comparator sort; embeds the slice sort_by call of items.rs line
344 (Rust sort_by is stable, as is insertion sort, so the two agree for a
common comparator). -/
def sortBy (cmp : α → α → Ordering) : List α → List α
  | [] => []
  | a :: l => insertSorted cmp a (sortBy cmp l)

/-- Position of an excerpt id in the excerpt sequence of a snapshot.
Modelled from the spec: ExcerptId order reflects position in the composite
document at the time of observation (spec sections 3 and 4.1); ids not
present in the document are placed after all present ones, by raw id. -/
def excerptPosition (s : MultiBufferSnapshot) (a : ExcerptId) : Nat :=
  match s.excerpts.findIdx? (fun e => decide (e.id = a)) with
  | some i => i
  | none => s.excerpts.length + a.id

/-- Modelled from the spec: ExcerptId::cmp (outside this file) is the
anchor-ordering comparator of spec section 4.1 restricted to excerpt ids:
compare positions in the current excerpt sequence of the snapshot. -/
def ExcerptId.cmp (a b : ExcerptId) (s : MultiBufferSnapshot) : Ordering :=
  compare (excerptPosition s a) (excerptPosition s b)

/-- Splice a list into an excerpt sequence right after the excerpt carrying
the id prev; when prev is absent the list lands at the end. -/
def insertAfterId (prev : ExcerptId) (newExcerpts : List Excerpt) :
    List Excerpt → List Excerpt
  | [] => newExcerpts
  | e :: rest =>
    if e.id = prev then e :: (newExcerpts ++ rest)
    else e :: insertAfterId prev newExcerpts rest

/-- Modelled from the spec: MultiBuffer::insert_excerpts_with_ids_after
(outside this file) inserts each excerpt run at the position indicated by
its leading insert-after id (spec section 4.4 step 2); the spec leaves the
absent-predecessor position open, modelled here as the end. -/
def insert_excerpts_with_ids_after (prev : ExcerptId) (buffer_id : Nat)
    (entries : List (ExcerptId × ExcerptRange Nat))
    (s : MultiBufferSnapshot) : MultiBufferSnapshot :=
  ⟨insertAfterId prev
    (entries.map fun p => { id := p.1, buffer_id := buffer_id, range := p.2 })
    s.excerpts⟩

/-- Modelled from the spec: MultiBuffer::remove_excerpts (outside this file)
destroys the excerpts carrying the given ids, taking them one at a time in
the order given (spec sections 3 and 4.4 step 2). -/
def remove_excerpts (ids : List ExcerptId) (s : MultiBufferSnapshot) :
    MultiBufferSnapshot :=
  ⟨ids.foldl (fun acc eid => acc.filter (fun e => decide (e.id ≠ eid))) s.excerpts⟩

/-- Embeds the adjacent_excerpts iterator of update_editor_from_message
(items.rs lines 362-371): consume following insertions while they carry no
explicit predecessor and reference the same buffer; returns the consumed
excerpts and the remaining insertions. -/
def takeAdjacent (buffer_id : Nat) :
    List ProtoExcerptInsertion → List ProtoExcerpt × List ProtoExcerptInsertion
  | [] => ([], [])
  | insertion :: rest =>
    match insertion.previous_excerpt_id, insertion.excerpt with
    | none, some e =>
      if e.buffer_id = buffer_id then
        ((e :: (takeAdjacent buffer_id rest).1), (takeAdjacent buffer_id rest).2)
      else ([], insertion :: rest)
    | _, _ => ([], insertion :: rest)

/-- Embeds the insertion loop of update_editor_from_message (items.rs lines
349-387), fuel-indexed for structural recursion: each step consumes at least
one insertion, so fuel equal to the list length is always enough. An
insertion with no excerpt payload, no explicit predecessor at the head of a
run, or an unavailable buffer is skipped; entries whose range fails to
decode are dropped inside the run. -/
def applyInsertionsFuel (project : List Nat) :
    Nat → List ProtoExcerptInsertion → MultiBufferSnapshot → MultiBufferSnapshot
  | _, [], s => s
  | 0, _ :: _, s => s
  | fuel + 1, insertion :: rest, s =>
    match insertion.excerpt with
    | none => applyInsertionsFuel project fuel rest s
    | some excerpt =>
      match insertion.previous_excerpt_id with
      | none => applyInsertionsFuel project fuel rest s
      | some previous_excerpt_id =>
        if project.contains excerpt.buffer_id then
          applyInsertionsFuel project fuel (takeAdjacent excerpt.buffer_id rest).2
            (insert_excerpts_with_ids_after
              (ExcerptId.from_proto previous_excerpt_id) excerpt.buffer_id
              ((excerpt :: (takeAdjacent excerpt.buffer_id rest).1).filterMap
                (fun ex => (deserialize_excerpt_range ex).map
                  (fun r => (ExcerptId.from_proto ex.id, r))))
              s)
        else applyInsertionsFuel project fuel rest s

/-- The insertion loop of update_editor_from_message with adequate fuel. -/
def applyInsertions (project : List Nat)
    (insertions : List ProtoExcerptInsertion)
    (s : MultiBufferSnapshot) : MultiBufferSnapshot :=
  applyInsertionsFuel project insertions.length insertions s

/-- Embeds the excerpt-update block of update_editor_from_message (items.rs
lines 338-390): the deleted ids are collected and sorted by the current
order of this document first, the insertions are then processed in the
order given, and the sorted deletions are removed last. The project is the
set of locally available buffer ids (project buffer_for_id). -/
def updateExcerpts (project : List Nat) (message : ProtoEditorUpdate)
    (s : MultiBufferSnapshot) : MultiBufferSnapshot :=
  let removed_excerpt_ids :=
    sortBy (fun a b => ExcerptId.cmp a b s)
      (message.deleted_excerpts.map ExcerptId.from_proto)
  remove_excerpts removed_excerpt_ids
    (applyInsertions project message.inserted_excerpts s)

/-- The excerpt update as the examined claim words it, for comparison with
updateExcerpts: the sorted deletions are removed from the composite document
before the insertions of the delta are applied. -/
def updateExcerptsRemoveFirst (project : List Nat)
    (message : ProtoEditorUpdate) (s : MultiBufferSnapshot) :
    MultiBufferSnapshot :=
  let removed_excerpt_ids :=
    sortBy (fun a b => ExcerptId.cmp a b s)
      (message.deleted_excerpts.map ExcerptId.from_proto)
  applyInsertions project message.inserted_excerpts
    (remove_excerpts removed_excerpt_ids s)

/-- The view state items.rs mutates when applying a delta: committed
selections, pending selection, viewport anchor, and whether an autoscroll
to the newest selection has been requested. -/
structure EditorViewState where
  selections : List (Selection Anchor)
  pending_selection : Option (Selection Anchor)
  scroll_anchor : ScrollAnchor
  autoscroll_requested : Bool
deriving DecidableEq

/-- Modelled from the spec: Editor::set_selections_from_remote (outside this
file) installs the decoded selection state as the view selection state
(spec section 4.4 step 5). -/
def set_selections_from_remote (selections : List (Selection Anchor))
    (pending : Option (Selection Anchor)) (e : EditorViewState) :
    EditorViewState :=
  { e with selections := selections, pending_selection := pending }

/-- Modelled from the spec: Editor::request_autoscroll_remotely (outside
this file) requests that the view scroll to make the newest selection
visible (spec section 4.4 step 5). -/
def request_autoscroll_remotely (e : EditorViewState) : EditorViewState :=
  { e with autoscroll_requested := true }

/-- Modelled from the spec: Editor::set_scroll_anchor_remote (outside this
file) installs the given anchor directly as the new viewport position
(spec section 4.4 step 5). -/
def set_scroll_anchor_remote (s : ScrollAnchor) (e : EditorViewState) :
    EditorViewState :=
  { e with scroll_anchor := s }

/-- Embeds the state-decoding block of update_editor_from_message (items.rs
lines 394-408): selections that fail to decode are dropped by filterMap, a
failing pending selection or scroll anchor decodes to none. Returns
(selections, pending_selection, scroll_top_anchor). -/
def decode_editor_state (buffer : MultiBufferSnapshot)
    (message : ProtoEditorUpdate) :
    List (Selection Anchor) × Option (Selection Anchor) × Option Anchor :=
  ( message.selections.filterMap (fun s => deserialize_selection buffer s)
  , message.pending_selection.bind (fun s => deserialize_selection buffer s)
  , message.scroll_top_anchor.bind (fun a => deserialize_anchor buffer a) )

/-- Embeds the final state-application block of update_editor_from_message
(items.rs lines 427-440): decoded selections win over the scroll anchor. -/
def apply_update_state (selections : List (Selection Anchor))
    (pending_selection : Option (Selection Anchor))
    (scroll_top_anchor : Option Anchor) (scroll_x scroll_y : F32)
    (e : EditorViewState) : EditorViewState :=
  if ¬ selections.isEmpty ∨ pending_selection.isSome then
    request_autoscroll_remotely
      (set_selections_from_remote selections pending_selection e)
  else
    match scroll_top_anchor with
    | some a =>
      set_scroll_anchor_remote { anchor := a, offset := (scroll_x, scroll_y) } e
    | none => e

/-- Editor events observed by add_event_to_update_proto (the Event enum of
the editor crate, restricted to the payloads that function reads). -/
inductive Event where
  | ExcerptsAdded (buffer_id : Nat) (predecessor : ExcerptId)
      (excerpts : List (ExcerptId × ExcerptRange Nat))
  | ExcerptsRemoved (ids : List ExcerptId)
  | ScrollPositionChanged (is_local : Bool)
  | SelectionsChanged (is_local : Bool)
  | Edited
  | Closed
deriving DecidableEq

/-- Embeds add_event_to_update_proto (items.rs lines 225-287): mutate the
lazily created in-progress delta according to the event kind and report the
Rust return value. The editor argument supplies the live scroll anchor and
selection state the scroll and selection arms read. -/
def add_event_to_update_proto (editor : EditorViewState) (event : Event)
    (update : Option ProtoEditorUpdate) : Bool × ProtoEditorUpdate :=
  let u := update.getD emptyUpdate
  match event with
  | .ExcerptsAdded buffer_id predecessor excerpts =>
    match excerpts with
    | [] => (true, u)
    | (id, range) :: rest =>
      (true,
        { u with inserted_excerpts := u.inserted_excerpts ++
            ({ previous_excerpt_id := some predecessor.to_proto
               excerpt := serialize_excerpt buffer_id id range } ::
             rest.map (fun p =>
               { previous_excerpt_id := none
                 excerpt := serialize_excerpt buffer_id p.1 p.2 })) })
  | .ExcerptsRemoved ids =>
    (true, { u with deleted_excerpts :=
        u.deleted_excerpts ++ ids.map ExcerptId.to_proto })
  | .ScrollPositionChanged _ =>
    (true, { u with
        scroll_top_anchor := some (serialize_anchor editor.scroll_anchor.anchor)
        scroll_x := editor.scroll_anchor.offset.1
        scroll_y := editor.scroll_anchor.offset.2 })
  | .SelectionsChanged _ =>
    (true, { u with
        selections := editor.selections.map serialize_selection
        pending_selection := editor.pending_selection.map serialize_selection })
  | _ => (false, u)

/-- The notion of a non-trivial delta used by the examined claim: at least
one insertion, deletion, selection, pending selection, or scroll change. -/
def nonTrivialDelta (u : ProtoEditorUpdate) : Bool :=
  !u.inserted_excerpts.isEmpty || !u.deleted_excerpts.isEmpty ||
  !u.selections.isEmpty || u.pending_selection.isSome ||
  u.scroll_top_anchor.isSome

/-- The event kinds for which add_event_to_update_proto mutates the delta;
every other kind falls to the default arm. -/
def isHandledEventKind : Event → Bool
  | .ExcerptsAdded _ _ _ => true
  | .ExcerptsRemoved _ => true
  | .ScrollPositionChanged _ => true
  | .SelectionsChanged _ => true
  | _ => false

/-- Search direction (workspace::searchable::Direction). -/
inductive Direction where
  | Prev
  | Next
deriving DecidableEq

/-- The comparator active_match_index passes to binary_search_by (items.rs
lines 1119-1126), over ranges modelled as (start, stop) positions under the
anchor order of spec section 4.1: Less when the probe ends before the
cursor, Greater when it starts after the cursor, Equal otherwise. Probes out
of bounds read the getD default and never arise inside the search. -/
def rangeCmp (ranges : List (Nat × Nat)) (cursor : Nat) (i : Nat) : Ordering :=
  let probe := ranges.getD i (0, 0)
  if probe.2 < cursor then .lt
  else if cursor < probe.1 then .gt
  else .eq

/-- Embeds the Rust core slice binary_search_by loop, fuel-indexed: each
iteration strictly shrinks the window, so fuel equal to the initial window
width is always enough. inl is Ok, inr is Err with the insertion point. -/
def binarySearchGo (f : Nat → Ordering) : Nat → Nat → Nat → Nat ⊕ Nat
  | 0, left, _ => Sum.inr left
  | fuel + 1, left, right =>
    if left < right then
      match f (left + (right - left) / 2) with
      | .lt => binarySearchGo f fuel (left + (right - left) / 2 + 1) right
      | .gt => binarySearchGo f fuel left (left + (right - left) / 2)
      | .eq => Sum.inl (left + (right - left) / 2)
    else Sum.inr left

/-- binary_search_by over the index window 0..len. -/
def binarySearchBy (f : Nat → Ordering) (len : Nat) : Nat ⊕ Nat :=
  binarySearchGo f len 0 len

/-- Embeds active_match_index (items.rs lines 1111-1131): none for an empty
range set, otherwise both the Ok and the Err outcome of the binary search
are clamped to the last index. -/
def active_match_index (ranges : List (Nat × Nat)) (cursor : Nat) :
    Option Nat :=
  if ranges.isEmpty then none
  else
    match binarySearchBy (rangeCmp ranges cursor) ranges.length with
    | .inl i => some (min i (ranges.length - 1))
    | .inr i => some (min i (ranges.length - 1))

/-- Embeds match_index_for_direction (items.rs lines 1006-1053). The
single_selection_head argument is some h when the editor has exactly one
disjoint selection with head h, and none otherwise, in which case the
reference position is the start of the current match. A none result models
a panic: indexing the match list out of bounds, or the remainder count modulo zero
on an empty match list. -/
def match_index_for_direction (matches_ : List (Nat × Nat))
    (single_selection_head : Option Nat) (current_index : Nat)
    (direction : Direction) (count : Nat) : Option Nat :=
  match (match single_selection_head with
         | some h => some h
         | none => (matches_.get? current_index).map Prod.fst) with
  | none => none
  | some current_index_position =>
    if matches_.length = 0 then none
    else
      let count1 := count % matches_.length
      if count1 = 0 then some current_index
      else
        match direction with
        | .Next =>
          match matches_.get? current_index with
          | none => none
          | some m =>
            let count2 :=
              if current_index_position < m.1 then count1 - 1 else count1
            some ((current_index + count2) % matches_.length)
        | .Prev =>
          match matches_.get? current_index with
          | none => none
          | some m =>
            let count2 :=
              if m.2 < current_index_position then count1 - 1 else count1
            some (if count2 ≤ current_index then current_index - count2
                  else matches_.length - (count2 - current_index))

/-- Embeds activate_match (items.rs lines 963-974), whose observable result
is the match range it selects; unfold_ranges, range_for_match and
change_selections are Editor methods outside this file, Modelled from the
spec: activating a match selects that match. A none result models the panic
of indexing the match list out of bounds. -/
def activate_match (index : Nat) (matches_ : List (Nat × Nat)) :
    Option (Nat × Nat) :=
  matches_.get? index

/-- A concrete anchor used to instantiate closed statements. -/
def sampleAnchor : Anchor :=
  { excerpt_id := ⟨1⟩, text_anchor := 0, buffer_id := none }

/-- A concrete selection used to instantiate closed statements. -/
def sampleSelection : Selection Anchor :=
  { id := 1, start := sampleAnchor, stop := sampleAnchor,
    reversed := false, goal := .none }

/-- A concrete view state used to instantiate closed statements. -/
def sampleEditor : EditorViewState :=
  { selections := [], pending_selection := none,
    scroll_anchor := { anchor := sampleAnchor, offset := (0, 0) },
    autoscroll_requested := false }

/-- A concrete composite document with the single excerpt id 1 of buffer 10,
used to instantiate closed statements. -/
def sampleState : MultiBufferSnapshot :=
  ⟨[{ id := ⟨1⟩, buffer_id := 10,
      range := { context := ⟨0, 5⟩, primary := none } }]⟩

/-- A concrete wire excerpt with id 3 in buffer 10, used to instantiate
closed statements. -/
def sampleProtoExcerpt : ProtoExcerpt :=
  { id := 3, buffer_id := 10, context_start := some (.valid 0),
    context_end := some (.valid 4), primary_start := none,
    primary_end := none }

/-- A concrete delta that inserts excerpt 3 after excerpt 1 and also deletes
excerpt 3, used to instantiate closed statements. -/
def sampleDelta : ProtoEditorUpdate :=
  { emptyUpdate with
    deleted_excerpts := [3]
    inserted_excerpts :=
      [{ previous_excerpt_id := some 1, excerpt := some sampleProtoExcerpt }] }

/-- A concrete wire selection with missing anchors, which fails to decode. -/
def badProtoSelection : ProtoSelection :=
  { id := 7, start := none, stop := none, reversed := false }

/-- A concrete wire editor anchor with a malformed text anchor, which fails
to decode. -/
def badProtoAnchor : ProtoEditorAnchor :=
  { excerpt_id := 1, anchor := some .invalid }

/-- A concrete sorted disjoint match list used to instantiate closed
statements. -/
def sampleRanges : List (Nat × Nat) := [(2, 3), (5, 8)]

theorem mem_insertSorted {cmp : α → α → Ordering} {a x : α} {l : List α} :
    x ∈ insertSorted cmp a l ↔ x = a ∨ x ∈ l := by
  induction l with
  | nil => simp [insertSorted]
  | cons b t ih =>
    rw [insertSorted]
    rcases hc : cmp a b with _ | _ | _ <;>
      simp [List.mem_cons, ih, or_left_comm, or_assoc]

theorem mem_sortBy {cmp : α → α → Ordering} {x : α} {l : List α} :
    x ∈ sortBy cmp l ↔ x ∈ l := by
  induction l with
  | nil => simp [sortBy]
  | cons a t ih => simp [sortBy, mem_insertSorted, ih]

theorem remove_excerpts_eq_filter (ids : List ExcerptId)
    (s : MultiBufferSnapshot) :
    remove_excerpts ids s =
      ⟨s.excerpts.filter (fun e => decide (e.id ∉ ids))⟩ := by
  induction ids generalizing s with
  | nil => simp [remove_excerpts]
  | cons i t ih =>
    have h1 : remove_excerpts (i :: t) s =
        remove_excerpts t ⟨s.excerpts.filter (fun e => decide (e.id ≠ i))⟩ := rfl
    rw [h1, ih]
    congr 1
    rw [List.filter_filter]
    apply List.filter_congr
    intro x _
    by_cases h1 : x.id = i <;> by_cases h2 : x.id ∈ t <;> simp [h1, h2]

/-- Shared description of the excerpt update: insertions are applied first,
and the sorted deletions then take effect as a membership filter. -/
theorem updateExcerpts_eq_filter (project : List Nat)
    (message : ProtoEditorUpdate) (s : MultiBufferSnapshot) :
    updateExcerpts project message s =
      ⟨(applyInsertions project message.inserted_excerpts s).excerpts.filter
        (fun e => decide
          (e.id ∉ message.deleted_excerpts.map ExcerptId.from_proto))⟩ := by
  unfold updateExcerpts
  rw [remove_excerpts_eq_filter]
  congr 1
  apply List.filter_congr
  intro x _
  rw [decide_eq_decide]
  exact not_congr mem_sortBy

/-- C1 counterexample: on a document holding only excerpt 1, a delta that
inserts excerpt 3 after excerpt 1 and also deletes excerpt 3 ends with
excerpt 3 absent under the code (insertions first, removal last), but with
excerpt 3 present under the claimed order (sorted deletions removed before
the insertions are applied); so the claimed order disagrees with the code. -/
theorem updateExcerpts_remove_first_differs :
    updateExcerpts [10] sampleDelta sampleState ≠
      updateExcerptsRemoveFirst [10] sampleDelta sampleState := by
  decide

/-- C1 (amended): update_editor_from_message first sorts the deleted id set
by the current excerpt order of this document, then applies the insertions
of the delta in the order given, and only then removes the sorted deletions
from the composite document, so the removal acts after the insertions and
amounts to a membership filter on the inserted result. -/
theorem updateExcerpts_insertions_then_deletions (project : List Nat)
    (message : ProtoEditorUpdate) (s : MultiBufferSnapshot) :
    updateExcerpts project message s =
      ⟨(applyInsertions project message.inserted_excerpts s).excerpts.filter
        (fun e => decide
          (e.id ∉ message.deleted_excerpts.map ExcerptId.from_proto))⟩ :=
  updateExcerpts_eq_filter project message s

/-- C5: permuting the deleted-excerpt-id list of a ViewDelta does not change
the resulting excerpt sequence of the composite document. -/
theorem updateExcerpts_deletion_order_independent (project : List Nat)
    (msg : ProtoEditorUpdate) (s : MultiBufferSnapshot) (l1 l2 : List Nat)
    (hperm : l1.Perm l2) :
    updateExcerpts project { msg with deleted_excerpts := l1 } s =
      updateExcerpts project { msg with deleted_excerpts := l2 } s := by
  rw [updateExcerpts_eq_filter, updateExcerpts_eq_filter]
  congr 1
  apply List.filter_congr
  intro x _
  rw [decide_eq_decide]
  exact not_congr ((hperm.map ExcerptId.from_proto).mem_iff)

/-- C5 witness: the sample delta with deletions listed as 3, 4 and as 4, 3
produces the same document. -/
theorem updateExcerpts_deletion_order_independent_witness :
    updateExcerpts [10] { sampleDelta with deleted_excerpts := [3, 4] }
        sampleState =
      updateExcerpts [10] { sampleDelta with deleted_excerpts := [4, 3] }
        sampleState :=
  updateExcerpts_deletion_order_independent [10] sampleDelta sampleState
    [3, 4] [4, 3] (by decide)

/-- C6: decoding the encoded wire form reproduces an equivalent excerpt
range, selection (id, start, end, reversed) and anchor; anchors are compared
up to metadata (resolved buffer id), and the selection id round-trips for
every id below 2 to the 64 (the usize width). -/
theorem serialization_round_trip (buffer : MultiBufferSnapshot)
    (buffer_id : Nat) (eid : ExcerptId) (range : ExcerptRange Nat)
    (sel : Selection Anchor) (a : Anchor) (hid : sel.id < 2 ^ 64) :
    (serialize_excerpt buffer_id eid range).bind deserialize_excerpt_range =
      some range ∧
    (∃ sel2, deserialize_selection buffer (serialize_selection sel) =
        some sel2 ∧
      sel2.id = sel.id ∧ anchorEquiv sel2.start sel.start ∧
      anchorEquiv sel2.stop sel.stop ∧ sel2.reversed = sel.reversed) ∧
    (∃ a2, deserialize_anchor buffer (serialize_anchor a) = some a2 ∧
      anchorEquiv a2 a) := by
  refine ⟨?_, ?_, ?_⟩
  · rcases range with ⟨⟨cs, ce⟩, _ | ⟨ps, pe⟩⟩ <;>
      simp [serialize_excerpt, deserialize_excerpt_range,
        serialize_text_anchor, deserialize_text_anchor]
  · refine ⟨_, rfl, ?_, ⟨rfl, rfl⟩, ⟨rfl, rfl⟩, rfl⟩
    show sel.id % 2 ^ 64 % 2 ^ 64 = sel.id
    omega
  · exact ⟨_, rfl, ⟨rfl, rfl⟩⟩

/-- C6 witness: the round trip at a concrete excerpt range, selection and
anchor over the sample document. -/
theorem serialization_round_trip_witness :
    (serialize_excerpt 10 ⟨1⟩
        { context := ⟨0, 5⟩, primary := none }).bind deserialize_excerpt_range =
      some { context := ⟨0, 5⟩, primary := none } ∧
    (∃ sel2, deserialize_selection sampleState
        (serialize_selection sampleSelection) = some sel2 ∧
      sel2.id = sampleSelection.id ∧
      anchorEquiv sel2.start sampleSelection.start ∧
      anchorEquiv sel2.stop sampleSelection.stop ∧
      sel2.reversed = sampleSelection.reversed) ∧
    (∃ a2, deserialize_anchor sampleState (serialize_anchor sampleAnchor) =
        some a2 ∧ anchorEquiv a2 sampleAnchor) :=
  serialization_round_trip sampleState 10 ⟨1⟩
    { context := ⟨0, 5⟩, primary := none } sampleSelection sampleAnchor
    (by decide)

/-- C7: a wire excerpt whose context start or context end is missing or
fails to decode deserializes to none rather than an error; a selection entry
that fails to decode is dropped from the decoded state while the other
entries survive; and a scroll anchor that fails to decode yields none for
the scroll component while the selection components are unaffected. -/
theorem decode_failures_dropped :
    (∀ excerpt : ProtoExcerpt,
      (excerpt.context_start.bind deserialize_text_anchor = none ∨
       excerpt.context_end.bind deserialize_text_anchor = none) →
      deserialize_excerpt_range excerpt = none) ∧
    (∀ (buffer : MultiBufferSnapshot) (msg : ProtoEditorUpdate)
       (l1 l2 : List ProtoSelection) (bad : ProtoSelection),
      deserialize_selection buffer bad = none →
      decode_editor_state buffer { msg with selections := l1 ++ bad :: l2 } =
        decode_editor_state buffer { msg with selections := l1 ++ l2 }) ∧
    (∀ (buffer : MultiBufferSnapshot) (msg : ProtoEditorUpdate)
       (bad : ProtoEditorAnchor),
      deserialize_anchor buffer bad = none →
      decode_editor_state buffer { msg with scroll_top_anchor := some bad } =
        ((decode_editor_state buffer msg).1,
         (decode_editor_state buffer msg).2.1, none)) := by
  refine ⟨?_, ?_, ?_⟩
  · intro excerpt h
    rcases excerpt with ⟨eid, bid, cs, ce, ps, pe⟩
    cases cs with
    | none => rfl
    | some c =>
      cases ce with
      | none =>
        cases c <;>
          simp_all [deserialize_excerpt_range, deserialize_text_anchor]
      | some c2 =>
        cases c <;> cases c2 <;>
          simp_all [deserialize_excerpt_range, deserialize_text_anchor]
  · intro buffer msg l1 l2 bad hbad
    simp [decode_editor_state, List.filterMap_append, List.filterMap_cons,
      hbad]
  · intro buffer msg bad hbad
    simp [decode_editor_state, hbad]

/-- C7 witness: a wire excerpt with a malformed context end decodes to none,
a malformed selection among good ones is dropped, and a malformed scroll
anchor decodes to none while leaving the selections alone. -/
theorem decode_failures_dropped_witness :
    (deserialize_excerpt_range
      { sampleProtoExcerpt with context_end := some .invalid } = none) ∧
    (decode_editor_state sampleState
        { emptyUpdate with selections :=
            [] ++ badProtoSelection :: [serialize_selection sampleSelection] } =
      decode_editor_state sampleState
        { emptyUpdate with selections :=
            [] ++ [serialize_selection sampleSelection] }) ∧
    (decode_editor_state sampleState
        { emptyUpdate with scroll_top_anchor := some badProtoAnchor } =
      ((decode_editor_state sampleState emptyUpdate).1,
       (decode_editor_state sampleState emptyUpdate).2.1, none)) :=
  ⟨decode_failures_dropped.1
      { sampleProtoExcerpt with context_end := some .invalid }
      (Or.inr (by decide)),
   decode_failures_dropped.2.1 sampleState emptyUpdate []
      [serialize_selection sampleSelection] badProtoSelection (by decide),
   decode_failures_dropped.2.2 sampleState emptyUpdate
      badProtoAnchor (by decide)⟩

/-- C2: applying the decoded state of one delta either installs the decoded
selections with an autoscroll request, leaving the viewport anchor alone
(whenever any committed or pending selection is present), or installs the
scroll anchor directly, leaving selections and autoscroll alone (when no
selection is present and a scroll anchor is), or does nothing; the two
outcomes never both occur for one delta. -/
theorem apply_update_state_selection_or_scroll (e : EditorViewState)
    (sels : List (Selection Anchor)) (pending : Option (Selection Anchor))
    (scroll : Option Anchor) (sx sy : F32) :
    ((¬ sels.isEmpty ∨ pending.isSome) →
      apply_update_state sels pending scroll sx sy e =
        { e with selections := sels, pending_selection := pending,
                 autoscroll_requested := true }) ∧
    (sels.isEmpty → pending = none → ∀ a, scroll = some a →
      apply_update_state sels pending scroll sx sy e =
        { e with scroll_anchor := { anchor := a, offset := (sx, sy) } }) ∧
    (sels.isEmpty → pending = none → scroll = none →
      apply_update_state sels pending scroll sx sy e = e) := by
  refine ⟨?_, ?_, ?_⟩
  · intro h
    unfold apply_update_state
    rw [if_pos h]
    rfl
  · intro h1 h2 a h3
    unfold apply_update_state
    rw [if_neg (by simp [h1, h2]), h3]
    rfl
  · intro h1 h2 h3
    unfold apply_update_state
    rw [if_neg (by simp [h1, h2]), h3]

/-- C2 witness: over concrete inputs, a delta carrying one selection
installs it and requests autoscroll while leaving the viewport anchor as it
was, and a selection-free delta carrying a scroll anchor installs that
anchor while leaving selections alone. -/
theorem apply_update_state_selection_or_scroll_witness :
    (apply_update_state [sampleSelection] none (some sampleAnchor) 1 2
        sampleEditor =
      { sampleEditor with selections := [sampleSelection],
                          pending_selection := none,
                          autoscroll_requested := true }) ∧
    (apply_update_state [] none (some sampleAnchor) 1 2 sampleEditor =
      { sampleEditor with scroll_anchor :=
          { anchor := sampleAnchor, offset := (1, 2) } }) :=
  ⟨(apply_update_state_selection_or_scroll sampleEditor [sampleSelection]
      none (some sampleAnchor) 1 2).1 (by decide),
   (apply_update_state_selection_or_scroll sampleEditor [] none
      (some sampleAnchor) 1 2).2.1 (by decide) rfl sampleAnchor rfl⟩

/-- C8 counterexample: an excerpts-added event with an empty excerpt list,
applied to a fresh accumulator, makes add_event_to_update_proto report true
although the accumulated delta is trivial (no insertion, deletion,
selection, pending selection, or scroll change). -/
theorem add_event_trivial_but_true :
    (add_event_to_update_proto sampleEditor
        (.ExcerptsAdded 1 ⟨1⟩ []) none).1 = true ∧
    nonTrivialDelta (add_event_to_update_proto sampleEditor
        (.ExcerptsAdded 1 ⟨1⟩ []) none).2 = false := by
  exact ⟨rfl, rfl⟩

/-- C8 (amended): add_event_to_update_proto returns true exactly when the
event is one of the four delta-mutating kinds (excerpts added, excerpts
removed, scroll changed, selections changed), independently of whether the
resulting accumulated delta is non-trivial. -/
theorem add_event_result_iff_handled (editor : EditorViewState)
    (event : Event) (update : Option ProtoEditorUpdate) :
    (add_event_to_update_proto editor event update).1 =
      isHandledEventKind event := by
  cases event with
  | ExcerptsAdded b p ex => cases ex <;> rfl
  | ExcerptsRemoved ids => rfl
  | ScrollPositionChanged l => rfl
  | SelectionsChanged l => rfl
  | Edited => rfl
  | Closed => rfl

/-- C9: coalescing an excerpts-added event with a non-empty excerpt list
appends one run to the delta insertions in which exactly the first entry
carries the explicit predecessor id of the event and every later entry of
the run carries none. -/
theorem inserted_run_predecessor_structure (editor : EditorViewState)
    (buffer_id : Nat) (predecessor : ExcerptId)
    (excerpts : List (ExcerptId × ExcerptRange Nat))
    (update : Option ProtoEditorUpdate) (hne : excerpts ≠ []) :
    ∃ first rest,
      ((add_event_to_update_proto editor
          (.ExcerptsAdded buffer_id predecessor excerpts) update).2).inserted_excerpts =
        (update.getD emptyUpdate).inserted_excerpts ++ first :: rest ∧
      first.previous_excerpt_id = some predecessor.to_proto ∧
      (∀ ins ∈ rest, ins.previous_excerpt_id = none) ∧
      rest.length + 1 = excerpts.length := by
  match excerpts, hne with
  | (id, range) :: tail, _ =>
    refine ⟨_, _, rfl, rfl, ?_, by simp⟩
    intro ins hins
    rcases List.mem_map.mp hins with ⟨p, _, h⟩
    exact h ▸ rfl

/-- C9 witness: the run appended for a concrete one-excerpt event. -/
theorem inserted_run_predecessor_structure_witness :
    ∃ first rest,
      ((add_event_to_update_proto sampleEditor
          (.ExcerptsAdded 10 ⟨1⟩ [(⟨2⟩, { context := ⟨0, 1⟩, primary := none })])
          none).2).inserted_excerpts =
        ((none : Option ProtoEditorUpdate).getD emptyUpdate).inserted_excerpts ++
          first :: rest ∧
      first.previous_excerpt_id = some (ExcerptId.to_proto ⟨1⟩) ∧
      (∀ ins ∈ rest, ins.previous_excerpt_id = none) ∧
      rest.length + 1 = 1 :=
  inserted_run_predecessor_structure sampleEditor 10 ⟨1⟩
    [(⟨2⟩, { context := ⟨0, 1⟩, primary := none })] none (by decide)

/-- C4 counterexample: with matches at 5..6 and 10..11, a single selection
whose head 3 sits before every match, current index 0 and count 1, stepping
Next returns index 0 (the step to the current match absorbs the count), and
stepping Prev from 0 with the cursor unchanged returns 1, not the original
index 0 modulo 2. -/
theorem match_index_round_trip_fails_off_match :
    match_index_for_direction [(5, 6), (10, 11)] (some 3) 0 .Next 1 =
      some 0 ∧
    match_index_for_direction [(5, 6), (10, 11)] (some 3) 0 .Prev 1 =
      some 1 ∧
    (1 : Nat) ≠ 0 % 2 := by
  refine ⟨by decide, by decide, by decide⟩

/-- C4 (amended): when the reference position is the start of the current
match (the multi-selection path of match_index_for_direction) and every
match range starts no later than it ends, stepping Next by count and then
Prev by the same count returns the original in-bounds index, for every count
with 0 < count < N, wraparound included. With a single selection whose head
sits off the current match the round trip can be off by one. -/
theorem match_index_round_trip_from_match_start
    (matches_ : List (Nat × Nat)) (i count : Nat)
    (hvalid : ∀ p ∈ matches_, p.1 ≤ p.2) (hi : i < matches_.length)
    (hc0 : 0 < count) (hcN : count < matches_.length) :
    ∃ j, match_index_for_direction matches_ none i .Next count = some j ∧
      match_index_for_direction matches_ none j .Prev count = some i := by
  have hlen : matches_.length ≠ 0 := by omega
  have hmod : count % matches_.length = count := Nat.mod_eq_of_lt hcN
  obtain ⟨mi, hmi⟩ : ∃ m, matches_.get? i = some m :=
    ⟨_, List.get?_eq_get hi⟩
  have hj : (i + count) % matches_.length < matches_.length :=
    Nat.mod_lt _ (by omega)
  obtain ⟨mj, hmj⟩ : ∃ m, matches_.get? ((i + count) % matches_.length) = some m :=
    ⟨_, List.get?_eq_get hj⟩
  have hvj : mj.1 ≤ mj.2 := hvalid mj (List.get?_mem hmj)
  refine ⟨(i + count) % matches_.length, ?_, ?_⟩
  · simp only [match_index_for_direction, hmi, Option.map_some']
    rw [if_neg hlen, hmod, if_neg (by omega)]
    simp
  · simp only [match_index_for_direction, hmj, Option.map_some']
    rw [if_neg hlen, hmod, if_neg (by omega), if_neg (Nat.not_lt.mpr hvj)]
    congr 1
    rcases Nat.lt_or_ge (i + count) matches_.length with h | h
    · rw [Nat.mod_eq_of_lt h, if_pos (by omega)]
      omega
    · have h2 : (i + count) % matches_.length = i + count - matches_.length := by
        rw [Nat.mod_eq_sub_mod h, Nat.mod_eq_of_lt (by omega)]
      rw [h2, if_neg (by omega)]
      omega

/-- C4 amended witness: the round trip at two concrete matches from the
start of match 1 with count 1. -/
theorem match_index_round_trip_from_match_start_witness :
    ∃ j, match_index_for_direction [(1, 2), (4, 5)] none 1 .Next 1 =
        some j ∧
      match_index_for_direction [(1, 2), (4, 5)] none j .Prev 1 = some 1 :=
  match_index_round_trip_from_match_start [(1, 2), (4, 5)] 1 1 (by decide)
    (by decide) (by decide) (by decide)

/-- C10 counterexample: on an empty match list, match_index_for_direction
reaches the remainder count modulo zero and activate_match indexes out of
bounds; both panic, modelled as the none result, so the operations do not
complete normally for every input they can be called with. -/
theorem match_index_empty_matches_panics :
    match_index_for_direction [] (some 0) 0 .Next 1 = none ∧
    activate_match 0 ([] : List (Nat × Nat)) = none := by
  exact ⟨rfl, rfl⟩

/-- C10 (amended): for a non-empty match list and an in-bounds current
index, match_index_for_direction completes normally for every head, count
and direction, and activate_match completes normally for every in-bounds
index; the division and indexing panics are only reachable from an empty
match list or an out-of-bounds index. -/
theorem search_ops_no_panic_in_bounds :
    (∀ (matches_ : List (Nat × Nat)) (head : Option Nat) (i : Nat)
       (d : Direction) (c : Nat), i < matches_.length →
       (match_index_for_direction matches_ head i d c).isSome = true) ∧
    (∀ (matches_ : List (Nat × Nat)) (i : Nat), i < matches_.length →
       (activate_match i matches_).isSome = true) := by
  constructor
  · intro ms head i d c hi
    have hlen : ms.length ≠ 0 := by omega
    obtain ⟨m, hm⟩ : ∃ m, ms.get? i = some m := ⟨_, List.get?_eq_get hi⟩
    have hsome : ∀ pos : Nat,
        (if ms.length = 0 then none
         else
          let count1 := c % ms.length
          if count1 = 0 then some i
          else
            match d with
            | .Next =>
              match ms.get? i with
              | none => none
              | some m =>
                let count2 := if pos < m.1 then count1 - 1 else count1
                some ((i + count2) % ms.length)
            | .Prev =>
              match ms.get? i with
              | none => none
              | some m =>
                let count2 := if m.2 < pos then count1 - 1 else count1
                some (if count2 ≤ i then i - count2
                      else ms.length - (count2 - i))).isSome = true := by
      intro pos
      have hm2 : ms[i]? = some m := (List.get?_eq_getElem? ms i) ▸ hm
      rw [if_neg hlen]
      by_cases hc : c % ms.length = 0
      · simp [hc]
      · cases d <;> simp [hc, hm, hm2]
    cases head with
    | some h =>
      simpa only [match_index_for_direction] using hsome h
    | none =>
      simpa only [match_index_for_direction, hm, Option.map_some'] using
        hsome m.1
  · intro ms i hi
    simp [activate_match, List.getElem?_eq_getElem hi]

/-- C10 amended witness: both operations complete normally at a concrete
one-element match list and index 0. -/
theorem search_ops_no_panic_in_bounds_witness :
    ((match_index_for_direction [(1, 2)] none 0 .Next 3).isSome = true) ∧
    ((activate_match 0 [(1, 2)]).isSome = true) :=
  ⟨search_ops_no_panic_in_bounds.1 [(1, 2)] none 0 .Next 3 (by decide),
   search_ops_no_panic_in_bounds.2 [(1, 2)] 0 (by decide)⟩

theorem rangeCmp_eq_lt {ranges : List (Nat × Nat)} {cursor i : Nat} :
    rangeCmp ranges cursor i = .lt ↔ (ranges.getD i (0, 0)).2 < cursor := by
  simp only [rangeCmp]
  split_ifs with h1 h2 <;> simp_all

theorem rangeCmp_eq_gt {ranges : List (Nat × Nat)} {cursor i : Nat} :
    rangeCmp ranges cursor i = .gt ↔
      ¬ (ranges.getD i (0, 0)).2 < cursor ∧ cursor < (ranges.getD i (0, 0)).1 := by
  simp only [rangeCmp]
  split_ifs with h1 h2 <;> simp_all

theorem rangeCmp_eq_eq {ranges : List (Nat × Nat)} {cursor i : Nat} :
    rangeCmp ranges cursor i = .eq ↔
      ¬ (ranges.getD i (0, 0)).2 < cursor ∧
        ¬ cursor < (ranges.getD i (0, 0)).1 := by
  simp only [rangeCmp]
  split_ifs with h1 h2 <;> simp_all

/-- Invariant-based description of the embedded binary search: given a
comparator that is monotone over the probed window (Greater stays Greater
rightward, Less stays Less leftward), an adequately fuelled run over a
window with all-Less prefix and all-Greater suffix either finds an Equal
index inside the window or returns the boundary between the Less prefix and
the Greater suffix. -/
theorem binarySearchGo_inv (f : Nat → Ordering) (N : Nat)
    (mg : ∀ i j, i ≤ j → j < N → f i = .gt → f j = .gt)
    (ml : ∀ i j, i ≤ j → j < N → f j = .lt → f i = .lt) :
    ∀ fuel left right, right - left ≤ fuel → left ≤ right → right ≤ N →
      (∀ i, i < left → f i = .lt) →
      (∀ i, right ≤ i → i < N → f i = .gt) →
      (∃ m, binarySearchGo f fuel left right = .inl m ∧ f m = .eq ∧ m < N) ∨
      (∃ m, binarySearchGo f fuel left right = .inr m ∧ m ≤ N ∧
        (∀ i, i < m → f i = .lt) ∧ (∀ i, m ≤ i → i < N → f i = .gt)) := by
  intro fuel
  induction fuel with
  | zero =>
    intro left right hfd hlr hrN hinvl hinvr
    have hlr2 : left = right := by omega
    subst hlr2
    exact Or.inr ⟨left, rfl, by omega, hinvl, hinvr⟩
  | succ fuel ih =>
    intro left right hfd hlr hrN hinvl hinvr
    by_cases h : left < right
    · have hmidlt : left + (right - left) / 2 < right := by omega
      have hmidge : left ≤ left + (right - left) / 2 := by omega
      rcases hf : f (left + (right - left) / 2) with _ | _ | _
      · have hrec : binarySearchGo f (fuel + 1) left right =
            binarySearchGo f fuel (left + (right - left) / 2 + 1) right := by
          rw [binarySearchGo, if_pos h, hf]
        rw [hrec]
        exact ih (left + (right - left) / 2 + 1) right (by omega) (by omega)
          hrN (fun i hi => ml i _ (by omega) (by omega) hf) hinvr
      · have hrec : binarySearchGo f (fuel + 1) left right =
            .inl (left + (right - left) / 2) := by
          rw [binarySearchGo, if_pos h, hf]
        rw [hrec]
        exact Or.inl ⟨_, rfl, hf, by omega⟩
      · have hrec : binarySearchGo f (fuel + 1) left right =
            binarySearchGo f fuel left (left + (right - left) / 2) := by
          rw [binarySearchGo, if_pos h, hf]
        rw [hrec]
        exact ih left (left + (right - left) / 2) (by omega) (by omega)
          (by omega) hinvl (fun i hge hiN => mg _ i hge hiN hf)
    · have hrec : binarySearchGo f (fuel + 1) left right = .inr left := by
        rw [binarySearchGo, if_neg h]
      rw [hrec]
      have hlr2 : left = right := by omega
      subst hlr2
      exact Or.inr ⟨left, rfl, by omega, hinvl, hinvr⟩

/-- C3: for every non-empty list of valid, sorted, disjoint ranges and every
cursor, active_match_index returns some in-bounds index i such that either
ranges[i] contains the cursor (its start is not after it and its end is not
before it), or no range contains the cursor and then either i is the
smallest index whose range starts after the cursor, or every range ends
before the cursor and i is the last index. -/
theorem active_match_index_resolves (ranges : List (Nat × Nat))
    (cursor : Nat) (hne : ranges ≠ [])
    (hvalid : ∀ p ∈ ranges, p.1 ≤ p.2)
    (hsorted : ranges.Pairwise (fun p q => p.2 < q.1)) :
    ∃ i, active_match_index ranges cursor = some i ∧ i < ranges.length ∧
      (((ranges.getD i (0, 0)).1 ≤ cursor ∧
        cursor ≤ (ranges.getD i (0, 0)).2) ∨
       ((∀ k, k < ranges.length →
           ¬ ((ranges.getD k (0, 0)).1 ≤ cursor ∧
              cursor ≤ (ranges.getD k (0, 0)).2)) ∧
        ((cursor < (ranges.getD i (0, 0)).1 ∧
           ∀ k, k < i → ¬ cursor < (ranges.getD k (0, 0)).1) ∨
         (i = ranges.length - 1 ∧
           ∀ k, k < ranges.length → (ranges.getD k (0, 0)).2 < cursor)))) := by
  have hN0 : 0 < ranges.length := List.length_pos.mpr hne
  have hv : ∀ k, k < ranges.length →
      (ranges.getD k (0, 0)).1 ≤ (ranges.getD k (0, 0)).2 := by
    intro k hk
    rw [List.getD_eq_getElem ranges (0, 0) hk]
    exact hvalid _ (List.getElem_mem hk)
  have hs : ∀ j k, j < k → k < ranges.length →
      (ranges.getD j (0, 0)).2 < (ranges.getD k (0, 0)).1 := by
    intro j k hjk hk
    rw [List.getD_eq_getElem ranges (0, 0) (by omega),
        List.getD_eq_getElem ranges (0, 0) hk]
    exact List.pairwise_iff_get.mp hsorted ⟨j, by omega⟩ ⟨k, hk⟩ hjk
  have mg : ∀ i j, i ≤ j → j < ranges.length →
      rangeCmp ranges cursor i = .gt → rangeCmp ranges cursor j = .gt := by
    intro i j hij hj hi
    rcases rangeCmp_eq_gt.mp hi with ⟨h1, h2⟩
    rcases Nat.eq_or_lt_of_le hij with rfl | hij2
    · exact hi
    · refine rangeCmp_eq_gt.mpr ⟨?_, ?_⟩
      · have := hs i j hij2 hj
        have := hv j hj
        omega
      · have := hs i j hij2 hj
        have := hv i (by omega)
        omega
  have ml : ∀ i j, i ≤ j → j < ranges.length →
      rangeCmp ranges cursor j = .lt → rangeCmp ranges cursor i = .lt := by
    intro i j hij hj hjlt
    have h1 := rangeCmp_eq_lt.mp hjlt
    rcases Nat.eq_or_lt_of_le hij with rfl | hij2
    · exact hjlt
    · refine rangeCmp_eq_lt.mpr ?_
      have := hs i j hij2 hj
      have := hv j hj
      omega
  have H := binarySearchGo_inv (rangeCmp ranges cursor) ranges.length mg ml
    ranges.length 0 ranges.length (by omega) (by omega) (le_refl _)
    (fun i hi => absurd hi (Nat.not_lt_zero i))
    (fun i h1 h2 => absurd (Nat.lt_of_le_of_lt h1 h2) (lt_irrefl _))
  have hie : ¬ ranges.isEmpty = true := by
    simp only [List.isEmpty_iff]
    exact hne
  rcases H with ⟨m, hbs, hfm, hmN⟩ | ⟨m, hbs, hmN, hlts, hgts⟩
  · refine ⟨m, ?_, hmN, ?_⟩
    · unfold active_match_index
      rw [if_neg hie, binarySearchBy, hbs]
      have hmin : min m (ranges.length - 1) = m := by omega
      simp [hmin]
    · left
      rcases rangeCmp_eq_eq.mp hfm with ⟨h1, h2⟩
      omega
  · rcases Nat.lt_or_ge m ranges.length with hmlt | hmge
    · have hgtm := rangeCmp_eq_gt.mp (hgts m (le_refl m) hmlt)
      refine ⟨m, ?_, hmlt, ?_⟩
      · unfold active_match_index
        rw [if_neg hie, binarySearchBy, hbs]
        have hmin : min m (ranges.length - 1) = m := by omega
        simp [hmin]
      · right
        constructor
        · intro k hk
          rcases Nat.lt_or_ge k m with hkm | hkm
          · have := rangeCmp_eq_lt.mp (hlts k hkm)
            omega
          · have := rangeCmp_eq_gt.mp (hgts k hkm hk)
            omega
        · left
          refine ⟨hgtm.2, ?_⟩
          intro k hk
          have h1 := rangeCmp_eq_lt.mp (hlts k hk)
          have := hv k (by omega)
          omega
    · have hmN2 : m = ranges.length := by omega
      subst hmN2
      have hall : ∀ k, k < ranges.length →
          (ranges.getD k (0, 0)).2 < cursor := by
        intro k hk
        exact rangeCmp_eq_lt.mp (hlts k (by omega))
      refine ⟨ranges.length - 1, ?_, by omega, ?_⟩
      · unfold active_match_index
        rw [if_neg hie, binarySearchBy, hbs]
        have hmin : min ranges.length (ranges.length - 1) =
            ranges.length - 1 := by omega
        simp [hmin]
      · right
        refine ⟨?_, Or.inr ⟨rfl, hall⟩⟩
        intro k hk
        have := hall k hk
        omega

/-- C3 witness: on the concrete sorted disjoint ranges 2..3 and 5..8 with
cursor 6, the resolved active match satisfies the stated property. -/
theorem active_match_index_resolves_witness :
    ∃ i, active_match_index sampleRanges 6 = some i ∧
      i < sampleRanges.length ∧
      (((sampleRanges.getD i (0, 0)).1 ≤ 6 ∧
        6 ≤ (sampleRanges.getD i (0, 0)).2) ∨
       ((∀ k, k < sampleRanges.length →
           ¬ ((sampleRanges.getD k (0, 0)).1 ≤ 6 ∧
              6 ≤ (sampleRanges.getD k (0, 0)).2)) ∧
        ((6 < (sampleRanges.getD i (0, 0)).1 ∧
           ∀ k, k < i → ¬ 6 < (sampleRanges.getD k (0, 0)).1) ∨
         (i = sampleRanges.length - 1 ∧
           ∀ k, k < sampleRanges.length →
             (sampleRanges.getD k (0, 0)).2 < 6)))) :=
  active_match_index_resolves sampleRanges 6 (by decide) (by decide)
    (by decide)

end Items
